import Mathlib

/-!
Shallow embedding of the core of `src/scraper/scraper.py` (McMasterScraper):
the table extractor, the page-classification probes and dispatch sites,
the handler loops, the document/skip-set state updates, and the durable
skip-list write.  Selenium elements are modelled as plain data; exceptions
as explicit result values.
-/

namespace McMaster

/-- Python `str.strip()` on a character list: drop whitespace from both ends. -/
def pyStrip (l : List Char) : List Char :=
  ((l.dropWhile Char.isWhitespace).reverse.dropWhile Char.isWhitespace).reverse

/-- `text.strip().replace('\n', '_')` applied to every scraped string
(the pattern is the single newline character, so the replacement is
character-wise). -/
def norm (s : String) : String :=
  ⟨(pyStrip s.data).map (fun c => if c = '\n' then '_' else c)⟩

/-- A Python dict from field name to value (`None` = `none`), insertion ordered,
with later inserts on the same key overwriting in place. -/
abbrev RowRecord := List (String × Option String)

/-- `d[k] = v` on a Python dict: overwrite in place if the key exists, else append. -/
def dictInsert (d : RowRecord) (k : String) (v : Option String) : RowRecord :=
  if d.any (fun p => p.1 == k) then
    d.map (fun p => if p.1 == k then (k, v) else p)
  else
    d ++ [(k, v)]

/-- Dict lookup: `some v` when the key is present with value `v`, else `none`. -/
def dlookup (d : RowRecord) (k : String) : Option (Option String) :=
  (d.find? (fun p => p.1 == k)).map Prod.snd

/-- The key set (in insertion order) of a record. -/
def keysOf (d : RowRecord) : List String := d.map Prod.fst

/-- Python `headers.insert(-1, x)`: insert one position before the end
(at position 0 when the list is empty, as negative indices clamp). -/
def insertBeforeLast (xs : List String) (x : String) : List String :=
  xs.take (xs.length - 1) ++ [x] ++ xs.drop (xs.length - 1)

/-- One `<tr>` of a table body: the text of its first `<th>` descendant
(if any), the texts of its `<td>` cells, and the full row text
(used as the dimension fallback for the first row). -/
structure TRow where
  th : Option String
  tds : List String
  text : String
deriving DecidableEq

/-- A rendered `<table>`: the `<td>` texts inside its `<thead>` (absent when
there is no `<thead>` element) and the rows of its `<tbody>` (absent when
there is no `<tbody>` element). -/
structure HTable where
  thead : Option (List String)
  tbody : Option (List TRow)
deriving DecidableEq

/-- Step 1 of `extract_data_from_table_ele`: the dimension (Property A) value,
`None` when there are no rows. -/
def dimensionOf (rows : List TRow) : Option String :=
  match rows with
  | [] => none
  | r :: _ =>
    match r.th with
    | some t => some (norm t)
    | none => some (norm r.text)

/-- Step 2, before the `serial_nu` insertion: normalized non-empty `<td>`
texts of the `<thead>` (empty when there is no `<thead>`). -/
def headersRaw (t : HTable) : List String :=
  match t.thead with
  | none => []
  | some cells => (cells.map norm).filter (fun s => s != "")

/-- Step 2 complete: `headers.insert(-1, "serial_nu")`. -/
def headersOf (t : HTable) : List String :=
  insertBeforeLast (headersRaw t) "serial_nu"

/-- The per-row update of `current_property_b`: a row whose own `<th>` text is
non-empty and differs from the dimension sets it; every other row inherits. -/
def updateB (dim : Option String) (curB : Option String) (r : TRow) : Option String :=
  match r.th with
  | some t =>
    let tt := norm t
    if tt ≠ "" ∧ some tt ≠ dim then some tt else curB
  | none => curB

/-- Boolean form of the condition under which a row sets `current_property_b`. -/
def setsB (dim : Option String) (r : TRow) : Bool :=
  match r.th with
  | some t => (norm t != "") && (some (norm t) != dim)
  | none => false

/-- The `for i, cell in enumerate(cells)` loop: cell `i` is stored under
`headers[i]` when `i < len(headers)`, and ignored otherwise. -/
def fillCells (headers : List String) (i : Nat) (cells : List String)
    (r : RowRecord) : RowRecord :=
  match cells with
  | [] => r
  | c :: cs =>
    let r' :=
      match headers[i]? with
      | some h => dictInsert r h (some (norm c))
      | none => r
    fillCells headers (i + 1) cs r'

/-- The `row_data` dict built for one emitted row. -/
def mkRowRecord (dim b : Option String) (headers : List String)
    (tds : List String) : RowRecord :=
  fillCells headers 0 tds
    (dictInsert (dictInsert [] "Property A" dim) "Property B" b)

/-- Step 3: the `for row in rows` loop, threading `current_property_b`;
rows without `<td>` cells emit nothing. -/
def processRows (dim : Option String) (headers : List String) :
    Option String → List TRow → List RowRecord
  | _, [] => []
  | b, r :: rest =>
    (if r.tds.isEmpty then []
     else [mkRowRecord dim (updateB dim b r) headers r.tds])
      ++ processRows dim headers (updateB dim b r) rest

/-- `McMasterScraper.extract_data_from_table_ele`: no `<tbody>` returns `[]`
(the `NoSuchElementException` branch); otherwise dimension, headers and the
row loop as in the source. -/
def extract_data_from_table_ele (t : HTable) : List RowRecord :=
  match t.tbody with
  | none => []
  | some rows => processRows (dimensionOf rows) (headersOf t) none rows

/-- One entry of a product's `data` list: an extracted table (a list of row
dicts), or the error / info marker dicts appended on failure. -/
inductive TableResult
  | rows (rs : List RowRecord)
  | errorMarker (msg : String)
  | infoMarker (msg : String)
deriving DecidableEq

/-- The `product_data` document inserted into the Mongo collection. -/
structure ProductDoc where
  category : String
  subcategory_1 : String
  subcategory_2 : String
  subcategory_3 : String
  title : String
  link : String
  timestamp : String
  images : List String
  description : Option String
  data : List TableResult
deriving DecidableEq

/-- The mutable state the scraper threads through every handler: the Mongo
collection (`db_client`), the in-memory `things_to_skip` list, and the
content last written to the durable skip-list JSON file. -/
structure ScrState where
  db : List ProductDoc
  skip : List String
  durableSkip : List String
deriving DecidableEq

/-- `save_skip_list` rewrites the whole file with the current list. -/
def save_skip_list (st : ScrState) : ScrState :=
  { st with durableSkip := st.skip }

/-- One `<section>` of `#PageCntnr`: its class attribute (stripped), the
`h3` title text, the non-null `img` `src` attributes in document order,
and the optional `CpyCntnr` description text. -/
structure SectionEle where
  className : String
  h3 : String
  imgs : List String
  copy : Option String
deriving DecidableEq

/-- The parts of a product page the product handler reads: the sections of
`#PageCntnr` (`none` when `#PageCntnr` cannot be located), the tables on the
page (`none` when the 10s wait for any table times out), and the capture
timestamp string. -/
structure ProductPage where
  pageCntnrSections : Option (List SectionEle)
  tables : Option (List HTable)
  timestamp : String
deriving DecidableEq

/-- `McMasterScraper.product_section_scrape_data`: build the document for one
section, insert it (unconditionally), then append the title to
`things_to_skip` and save the list when the title is non-empty and new. -/
def product_section_scrape_data (st : ScrState) (product_link : String)
    (sec : SectionEle) (pageTables : Option (List HTable)) (ts : String)
    (subcat1 subcat2 subcat3 cat : String) : ScrState :=
  let product_title := sec.h3
  let img_links := sec.imgs.eraseDups
  let tableData : List TableResult :=
    match pageTables with
    | some tbls => tbls.map (fun t => TableResult.rows (extract_data_from_table_ele t))
    | none => [TableResult.infoMarker "No table data found on this page"]
  let doc : ProductDoc :=
    { category := cat, subcategory_1 := subcat1, subcategory_2 := subcat2,
      subcategory_3 := subcat3, title := product_title, link := product_link,
      timestamp := ts, images := img_links, description := sec.copy,
      data := tableData }
  let st1 : ScrState := { st with db := st.db ++ [doc] }
  if product_title ≠ "" ∧ product_title ∉ st1.skip then
    save_skip_list { st1 with skip := st1.skip ++ [product_title] }
  else st1

/-- `McMasterScraper.handle_product_page`: return silently when `#PageCntnr`
is missing, else scrape every section whose class is not the excluded `ap`. -/
def handle_product_page (st : ScrState) (pg : ProductPage) (link : String)
    (subcat1 subcat2 cat subcat3 : String) : ScrState :=
  match pg.pageCntnrSections with
  | none => st
  | some sections =>
    sections.foldl
      (fun acc sec =>
        if sec.className = "ap" then acc
        else product_section_scrape_data acc link sec pg.tables pg.timestamp
          subcat1 subcat2 subcat3 cat)
      st

/-- An exception escaping a unit of work: `AccessRestrictedError`, or any
other exception. -/
inductive RaisedErr
  | accessRestricted
  | other
deriving DecidableEq

/-- One anchor item inside a `GroupPrsnttn` group of a types index page:
its href, its `ke` title text, whether the data-protection indicator of the
page behind the link becomes visible within 2s, and that page's content. -/
structure TypeItem where
  link : String
  title : String
  pageDataProtectionVisible : Bool
  page : ProductPage
deriving DecidableEq

/-- The body of the inner product loop of
`McMasterScraper.handle_types_index_page` for one item: skip titles in
`things_to_skip`; when `find_document` on the link hits, skip and backfill
the skip list; otherwise check `access_restricted` (raising when the
indicator is visible, as the call sites do) and run the product handler. -/
def types_index_product_step (st : ScrState) (it : TypeItem)
    (subcat1 subcat2 cat subcat3 : String) : ScrState × Option RaisedErr :=
  if it.title ∈ st.skip then (st, none)
  else if (st.db.find? (fun d => d.link == it.link)).isSome then
    if it.title ∉ st.skip then
      (save_skip_list { st with skip := st.skip ++ [it.title] }, none)
    else (st, none)
  else if it.pageDataProtectionVisible then (st, some .accessRestricted)
  else (handle_product_page st it.page it.link subcat1 subcat2 cat subcat3, none)

/-- The inner product loop of `handle_types_index_page`:
`AccessRestrictedError` is re-raised and aborts the loop; any other
exception is caught and iteration continues with the next item. -/
def types_products_loop (subcat1 subcat2 cat subcat3 : String) :
    ScrState → List TypeItem → ScrState × Option RaisedErr
  | st, [] => (st, none)
  | st, it :: rest =>
    match types_index_product_step st it subcat1 subcat2 cat subcat3 with
    | (st', some .accessRestricted) => (st', some .accessRestricted)
    | (st', some .other) => types_products_loop subcat1 subcat2 cat subcat3 st' rest
    | (st', none) => types_products_loop subcat1 subcat2 cat subcat3 st' rest

/-- The group loop of `handle_types_index_page` over the `GroupPrsnttn`
containers, with the same per-group catch: `AccessRestrictedError` re-raised,
other exceptions caught and the next group processed. -/
def types_groups_loop (subcat1 subcat2 cat subcat3 : String) :
    ScrState → List (List TypeItem) → ScrState × Option RaisedErr
  | st, [] => (st, none)
  | st, g :: rest =>
    match types_products_loop subcat1 subcat2 cat subcat3 st g with
    | (st', some .accessRestricted) => (st', some .accessRestricted)
    | (st', some .other) => types_groups_loop subcat1 subcat2 cat subcat3 st' rest
    | (st', none) => types_groups_loop subcat1 subcat2 cat subcat3 st' rest

/-- `McMasterScraper.handle_types_index_page`: the 60s visibility wait for
the `GroupPrsnttn` containers times out when there are none, and the outer
handler re-raises that exception; otherwise the group loop runs. -/
def handle_types_index_page (st : ScrState) (groups : List (List TypeItem))
    (subcat1 subcat2 cat subcat3 : String) : ScrState × Option RaisedErr :=
  if groups.isEmpty then (st, some .other)
  else types_groups_loop subcat1 subcat2 cat subcat3 st groups

/-- The page behind a link opened in a new tab, as seen by the boolean page
probes and the dispatching handlers. -/
structure ChildPage where
  dataProtectionVisible : Bool
  mainContentVisible : Bool
  tableCount : Nat
  clientRenderedPresent : Bool
  groupCount : Nat
  pageCntnrPresent : Bool
  pageCntnrGroupCount : Nat
  productPageMarker : Bool
  product : ProductPage
  typeGroups : List (List TypeItem)
deriving DecidableEq

/-- `McMasterScraper.access_restricted`: true exactly when the
`ProdDatProtectionWebPart_MainContentCntnr` element becomes visible within
the 2s wait. (Its docstring reads this as access NOT restricted, yet every
call site raises `AccessRestrictedError` when it returns true.) -/
def access_restricted (p : ChildPage) : Bool := p.dataProtectionVisible

/-- `whether_table_page_or_not`: at least one `table` element present. -/
def whether_table_page_or_not (p : ChildPage) : Bool := p.tableCount != 0

/-- `whether_subcat_index_page_or_not`: the `ClientRenderedContentWebPart`
container is present. -/
def whether_subcat_index_page_or_not (p : ChildPage) : Bool :=
  p.clientRenderedPresent

/-- `whether_types_index_page_or_not`: at least one `GroupPrsnttn` container
present. -/
def whether_types_index_page_or_not (p : ChildPage) : Bool := p.groupCount != 0

/-- `whether_product_page_or_not`: `#PageCntnr` is present and either holds
zero `GroupPrsnttn` containers or the `#ProductPage` marker exists. -/
def whether_product_page_or_not (p : ChildPage) : Bool :=
  p.pageCntnrPresent && (p.pageCntnrGroupCount == 0 || p.productPageMarker)

/-- The page kind a dispatch site settles on. -/
inductive PageKind
  | accessRestrictedKind
  | tablePage
  | subcatIndex
  | typesIndex
  | productPage
  | unknown
deriving DecidableEq

/-- The dispatch chain in `McMasterScraper.run` for one leaf item:
`access_restricted` first (raising when true), then table page, then
subcategory index, then types index, else the unhandled-page warning.
`none` models the probes' 60s `MainContent` wait timing out (an exception
escapes before any kind is picked). -/
def classify_run_dispatch (p : ChildPage) : Option PageKind :=
  if access_restricted p then some .accessRestrictedKind
  else if !p.mainContentVisible then none
  else if whether_table_page_or_not p then some .tablePage
  else if whether_subcat_index_page_or_not p then some .subcatIndex
  else if whether_types_index_page_or_not p then some .typesIndex
  else some .unknown

/-- The dispatch chain in `McMasterScraper.handle_subcategories_index_page`
for one tile: `access_restricted` first, then table page, then product page,
then types index; no subcategory-index or unknown branch (nothing is
dispatched when no probe matches). -/
def classify_subcat_dispatch (p : ChildPage) : Option PageKind :=
  if access_restricted p then some .accessRestrictedKind
  else if !p.mainContentVisible then none
  else if whether_table_page_or_not p then some .tablePage
  else if whether_product_page_or_not p then some .productPage
  else if whether_types_index_page_or_not p then some .typesIndex
  else some .unknown

/-- One anchor tile of a subcategories index page: its href, the
`TileLayout_titleContainer` text (`subcat_name3`, the skip key), and the
page behind the link. -/
structure SubcatItem where
  link : String
  subcat_name3 : String
  page : ChildPage
deriving DecidableEq

/-- The body of the tile loop of
`McMasterScraper.handle_subcategories_index_page` for one tile: skip-list
check, `access_restricted` (re-raised by the per-item handler), the
table / product / types dispatch, then the skip-list append on success.
A `MainContent` wait timeout or a failure re-raised by the types handler is
caught by the per-item `except` and iteration continues (no skip append). -/
def subcat_item_step (st : ScrState) (it : SubcatItem)
    (subcat1 subcat2 cat : String) : ScrState × Option RaisedErr :=
  if it.subcat_name3 ∈ st.skip then (st, none)
  else if access_restricted it.page then (st, some .accessRestricted)
  else if !it.page.mainContentVisible then (st, none)
  else
    let dispatched : ScrState × Option RaisedErr :=
      if whether_table_page_or_not it.page then
        (handle_product_page st it.page.product it.link subcat1 subcat2 cat
          it.subcat_name3, none)
      else if whether_product_page_or_not it.page then
        (handle_product_page st it.page.product it.link subcat1 subcat2 cat
          it.subcat_name3, none)
      else if whether_types_index_page_or_not it.page then
        handle_types_index_page st it.page.typeGroups subcat1 subcat2 cat
          it.subcat_name3
      else (st, none)
    match dispatched with
    | (st1, some .accessRestricted) => (st1, some .accessRestricted)
    | (st1, some .other) => (st1, none)
    | (st1, none) =>
      if it.subcat_name3 ∉ st1.skip then
        (save_skip_list { st1 with skip := st1.skip ++ [it.subcat_name3] }, none)
      else (st1, none)

/-- What processing one child item does, seen from the enclosing loop:
completes, raises `AccessRestrictedError`, or raises some other exception. -/
inductive ItemRes
  | ok
  | raiseAR
  | raiseOther
deriving DecidableEq

/-- The per-item `try`/`except` skeleton shared by
`handle_types_index_page` and `handle_subcategories_index_page`:
`AccessRestrictedError` is re-raised and aborts the loop, any other
exception is caught and logged and the next sibling is processed.
Returns how many items were attempted and the exception that escaped. -/
def handlerItemLoop : List ItemRes → Nat × Option RaisedErr
  | [] => (0, none)
  | i :: rest =>
    match i with
    | .raiseAR => (1, some .accessRestricted)
    | _ =>
      let (n, e) := handlerItemLoop rest
      (n + 1, e)

/-- The leaf-item loop of `McMasterScraper.run`: the loop body has no
per-item `try`/`except`, so the first exception of any kind aborts the loop
and propagates out of `run` (which re-raises it). -/
def runItemLoop : List ItemRes → Nat × Option RaisedErr
  | [] => (0, none)
  | i :: rest =>
    match i with
    | .raiseAR => (1, some .accessRestricted)
    | .raiseOther => (1, some .other)
    | .ok =>
      let (n, e) := runItemLoop rest
      (n + 1, e)

/-- An operation `save_skip_list` performs on the durable skip-list file:
`open(SKIP_LIST_FILE, 'w')` truncates the file in place, then `json.dump`
writes the full JSON array.  (No temporary file and no rename exist in the
source.) -/
inductive FileOp
  | openTruncate
  | writeAll (l : List String)
deriving DecidableEq

/-- Durable file content: `none` while truncated or partially written (not a
complete JSON array), `some l` once a full array has been written. -/
def applyFileOp : Option (List String) → FileOp → Option (List String)
  | _, .openTruncate => none
  | _, .writeAll l => some l

/-- The file operations of one `save_skip_list(skip_list)` call. -/
def save_skip_list_ops (l : List String) : List FileOp :=
  [.openTruncate, .writeAll l]

/-- The durable content after running a prefix of `k` operations — the file
the next process finds when this one crashes at that point. -/
def fileAfterCrash (f : Option (List String)) (ops : List FileOp) (k : Nat) :
    Option (List String) :=
  (ops.take k).foldl applyFileOp f

/-- The record shape `extract_data_from_table_ele` produces when the header
list is exactly `["serial_nu"]`: each row with cells contributes one record
holding exactly `Property A`, `Property B` and `serial_nu` (the normalized
text of the row's first cell); all later cells are dropped. -/
def soloRecords (dim : Option String) : Option String → List TRow → List RowRecord
  | _, [] => []
  | b, r :: rest =>
    (match r.tds with
     | [] => []
     | c :: _ =>
       [[("Property A", dim), ("Property B", updateB dim b r),
         ("serial_nu", some (norm c))]])
      ++ soloRecords dim (updateB dim b r) rest

/-- The in-memory skip list and the content last written to the durable
skip-list file agree. -/
def skipFlushed (st : ScrState) : Prop := st.durableSkip = st.skip

/-! Concrete fixtures used by the per-claim theorems below. -/

/-- A product page with no sections and no tables (content irrelevant). -/
def blankProduct : ProductPage :=
  { pageCntnrSections := none, tables := none, timestamp := "" }

/-- A loaded page whose data-protection indicator never becomes visible
within the 2s wait, and which carries a table. -/
def c1PageNoIndicator : ChildPage :=
  { dataProtectionVisible := false, mainContentVisible := true,
    tableCount := 1, clientRenderedPresent := false, groupCount := 2,
    pageCntnrPresent := true, pageCntnrGroupCount := 2,
    productPageMarker := false, product := blankProduct, typeGroups := [] }

/-- The same page with the data-protection indicator visible. -/
def c1PageIndicator : ChildPage :=
  { c1PageNoIndicator with dataProtectionVisible := true }

/-- A document already present in the store under link `L`. -/
def c2ExistingDoc : ProductDoc :=
  { category := "", subcategory_1 := "", subcategory_2 := "",
    subcategory_3 := "", title := "Old", link := "L", timestamp := "",
    images := [], description := none, data := [] }

/-- A state whose document store already holds a document with link `L`. -/
def c2State : ScrState := { db := [c2ExistingDoc], skip := [], durableSkip := [] }

/-- A product page with one included section titled `T`. -/
def c2ProductContent : ProductPage :=
  { pageCntnrSections := some [{ className := "", h3 := "T", imgs := [], copy := none }],
    tables := none, timestamp := "ts" }

/-- A child page classified as a table page, backed by `c2ProductContent`. -/
def c2TablePage : ChildPage :=
  { dataProtectionVisible := false, mainContentVisible := true,
    tableCount := 1, clientRenderedPresent := false, groupCount := 0,
    pageCntnrPresent := true, pageCntnrGroupCount := 0,
    productPageMarker := true, product := c2ProductContent, typeGroups := [] }

/-- A subcategory tile whose link `L` already has a matching stored document. -/
def c2Tile : SubcatItem := { link := "L", subcat_name3 := "S3", page := c2TablePage }

/-- A types-index item whose link is already in the store and whose title is
new, for the amended C2 statement's witness. -/
def c2WitnessItem : TypeItem :=
  { link := "L", title := "NewTitle", pageDataProtectionVisible := false,
    page := c2ProductContent }

/-- A table with two non-empty header labels and one body row holding a
single data cell. -/
def c3Table : HTable :=
  { thead := some ["Material", "Length"],
    tbody := some [⟨some "2-56", ["Steel"], "2-56"⟩] }

/-- Mixed body rows: a two-cell row and a one-cell row. -/
def c3WitnessRows : List TRow :=
  [⟨some "2-56", ["Steel", "10mm"], "2-56"⟩, ⟨none, ["Brass"], ""⟩]

/-- A table with two non-empty header labels over mixed-length rows. -/
def c3WitnessTable : HTable :=
  { thead := some ["Material", "Length"], tbody := some c3WitnessRows }

/-- The C4 scenario: dimension `2-56`, no `thead`, first body row with
row-header `2-56` and cells `Steel` / `10mm`, second body row with cells
`Brass` / `12mm`. -/
def c4Table : HTable :=
  { thead := none,
    tbody := some [⟨some "2-56", ["Steel", "10mm"], "2-56"⟩,
                   ⟨none, ["Brass", "12mm"], ""⟩] }

/-- A page on which both the product-page probe and the types-index probe
return true (no table): `#PageCntnr` holds `GroupPrsnttn` containers and the
`#ProductPage` marker is present. -/
def c5BothPage : ChildPage :=
  { dataProtectionVisible := false, mainContentVisible := true,
    tableCount := 0, clientRenderedPresent := false, groupCount := 3,
    pageCntnrPresent := true, pageCntnrGroupCount := 3,
    productPageMarker := true, product := blankProduct, typeGroups := [] }

/-- A loaded page for the C5 witness. -/
def c5WitnessPage : ChildPage :=
  { dataProtectionVisible := false, mainContentVisible := true,
    tableCount := 0, clientRenderedPresent := true, groupCount := 0,
    pageCntnrPresent := true, pageCntnrGroupCount := 0,
    productPageMarker := false, product := blankProduct, typeGroups := [] }

/-- Rows whose `<th>` cells never qualify as a new Property B (one repeats
the dimension, one has no header cell). -/
def c6TailRows : List TRow :=
  [⟨some "2-56", ["a1", "a2"], "2-56"⟩, ⟨none, ["b1"], ""⟩]

/-- A prefix row that sets Property B to `Zinc Steel`. -/
def c6HeadRows : List TRow := [⟨some "Zinc Steel", ["c1"], "Zinc Steel"⟩]

/-- Body rows for the C10 witness: a two-cell row, a header-only row, a
cell-only row. -/
def c10Rows : List TRow :=
  [⟨some "2-56", ["Steel", "10mm"], "2-56"⟩,
   ⟨some "Brass Alloy", [], "Brass Alloy"⟩,
   ⟨none, ["Brass", "12mm"], ""⟩]

/-- A table whose `thead` exists but holds only whitespace header cells. -/
def c10Table : HTable :=
  { thead := some ["", " \n "], tbody := some c10Rows }

/-- A state whose durable skip-list copy matches the in-memory list. -/
def c9State : ScrState :=
  { db := [], skip := ["a"], durableSkip := ["a"] }

/-! Helper lemmas about the dict model and the cell-filling loop. -/

theorem keysOf_dictInsert_eq (d : RowRecord) (k : String) (v : Option String) :
    keysOf (dictInsert d k v) = if k ∈ keysOf d then keysOf d else keysOf d ++ [k] := by
  unfold dictInsert keysOf
  by_cases h : d.any (fun p => p.1 == k)
  · have hk : k ∈ d.map Prod.fst := by
      rcases List.any_eq_true.1 h with ⟨p, hp, hpk⟩
      exact List.mem_map.2 ⟨p, hp, (beq_iff_eq.1 hpk)⟩
    rw [if_pos h, if_pos hk, List.map_map]
    refine List.map_congr_left (fun p _ => ?_)
    by_cases hpk : p.1 = k
    · simp [hpk]
    · simp [hpk]
  · have hk : k ∉ d.map Prod.fst := by
      intro hmem
      rcases List.mem_map.1 hmem with ⟨p, hp, he⟩
      exact h (List.any_eq_true.2 ⟨p, hp, beq_iff_eq.2 he⟩)
    rw [if_neg h, if_neg hk]
    simp

theorem mem_keysOf_dictInsert (d : RowRecord) (k k' : String) (v : Option String) :
    k' ∈ keysOf (dictInsert d k v) ↔ k' ∈ keysOf d ∨ k' = k := by
  rw [keysOf_dictInsert_eq]
  by_cases h : k ∈ keysOf d
  · rw [if_pos h]
    constructor
    · exact Or.inl
    · rintro (hm | rfl)
      · exact hm
      · exact h
  · rw [if_neg h]
    simp

theorem length_keysOf_dictInsert (d : RowRecord) (k : String) (v : Option String) :
    (keysOf (dictInsert d k v)).length ≤ (keysOf d).length + 1 := by
  rw [keysOf_dictInsert_eq]
  by_cases h : k ∈ keysOf d
  · rw [if_pos h]; omega
  · rw [if_neg h]; simp

theorem find?_overwrite (k k' : String) (v : Option String) (h : k' ≠ k) :
    ∀ ps : List (String × Option String),
      List.find? (fun p => p.1 == k')
          (ps.map (fun p => if p.1 == k then (k, v) else p))
        = List.find? (fun p => p.1 == k') ps
  | [] => rfl
  | p :: ps => by
    rw [List.map_cons]
    by_cases hpk : p.1 = k
    · have hif : (if p.1 == k then (k, v) else p) = (k, v) := by simp [hpk]
      have hkv : ¬((fun q : String × Option String => q.1 == k') (k, v) = true) := by
        simp
        exact fun he => h he.symm
      have hp : ¬((fun q : String × Option String => q.1 == k') p = true) := by
        simp [hpk]
        exact fun he => h he.symm
      rw [hif, @List.find?_cons_of_neg _ (fun q => q.1 == k') (k, v) _ hkv,
        @List.find?_cons_of_neg _ (fun q => q.1 == k') p _ hp]
      exact find?_overwrite k k' v h ps
    · have hsame : (if p.1 == k then (k, v) else p) = p := by simp [hpk]
      rw [hsame]
      by_cases hpk' : p.1 = k'
      · rw [List.find?_cons_of_pos _ (by simp [hpk']),
          List.find?_cons_of_pos _ (by simp [hpk'])]
      · rw [List.find?_cons_of_neg _ (by simp [hpk']),
          List.find?_cons_of_neg _ (by simp [hpk'])]
        exact find?_overwrite k k' v h ps

theorem find?_append_single (k k' : String) (v : Option String) (h : k' ≠ k) :
    ∀ ps : List (String × Option String),
      List.find? (fun p => p.1 == k') (ps ++ [(k, v)])
        = List.find? (fun p => p.1 == k') ps
  | [] => by
    have hkv : ¬((fun q : String × Option String => q.1 == k') (k, v) = true) := by
      simp
      exact fun he => h he.symm
    rw [List.nil_append, @List.find?_cons_of_neg _ (fun q => q.1 == k') (k, v) _ hkv]
  | p :: ps => by
    rw [List.cons_append]
    by_cases hpk' : p.1 = k'
    · rw [List.find?_cons_of_pos _ (by simp [hpk']),
        List.find?_cons_of_pos _ (by simp [hpk'])]
    · rw [List.find?_cons_of_neg _ (by simp [hpk']),
        List.find?_cons_of_neg _ (by simp [hpk'])]
      exact find?_append_single k k' v h ps

theorem dlookup_dictInsert_ne (d : RowRecord) (k k' : String) (v : Option String)
    (h : k' ≠ k) : dlookup (dictInsert d k v) k' = dlookup d k' := by
  unfold dictInsert dlookup
  by_cases hc : d.any (fun p => p.1 == k)
  · rw [if_pos hc, find?_overwrite k k' v h d]
  · rw [if_neg hc, find?_append_single k k' v h d]

theorem dlookup_base (dim b : Option String) :
    dlookup (dictInsert (dictInsert [] "Property A" dim) "Property B" b)
      "Property B" = some b := rfl

theorem keysOf_base (dim b : Option String) :
    keysOf (dictInsert (dictInsert [] "Property A" dim) "Property B" b)
      = ["Property A", "Property B"] := rfl

theorem fillCells_keys_superset (headers : List String) (k' : String) :
    ∀ (cells : List String) (i : Nat) (r : RowRecord),
      k' ∈ keysOf r → k' ∈ keysOf (fillCells headers i cells r)
  | [], _, _, h => h
  | c :: cs, i, r, h => by
    unfold fillCells
    cases hh : headers[i]? with
    | none => exact fillCells_keys_superset headers k' cs (i + 1) r h
    | some hd =>
      exact fillCells_keys_superset headers k' cs (i + 1) _
        ((mem_keysOf_dictInsert r hd k' _).2 (Or.inl h))

theorem fillCells_key_hit (headers : List String) (hd : String) :
    ∀ (cells : List String) (i j : Nat) (r : RowRecord),
      headers[j]? = some hd → i ≤ j → j < i + cells.length →
      hd ∈ keysOf (fillCells headers i cells r)
  | [], _, j, _, _, hij, hlt => by simp only [List.length_nil] at hlt; omega
  | c :: cs, i, j, r, hj, hij, hlt => by
    unfold fillCells
    by_cases hji : j = i
    · subst hji
      rw [hj]
      exact fillCells_keys_superset headers hd cs (j + 1) _
        ((mem_keysOf_dictInsert r hd hd _).2 (Or.inr rfl))
    · have h1 : i + 1 ≤ j := by omega
      have h2 : j < (i + 1) + cs.length := by
        simp only [List.length_cons] at hlt; omega
      cases hh : headers[i]? with
      | none => exact fillCells_key_hit headers hd cs (i + 1) j r hj h1 h2
      | some hd' => exact fillCells_key_hit headers hd cs (i + 1) j _ hj h1 h2

theorem fillCells_keys_length (headers : List String) :
    ∀ (cells : List String) (i : Nat) (r : RowRecord),
      (keysOf (fillCells headers i cells r)).length
        ≤ (keysOf r).length + (headers.length - i)
  | [], _, _ => by simp [fillCells]
  | c :: cs, i, r => by
    unfold fillCells
    cases hh : headers[i]? with
    | none =>
      show (keysOf (fillCells headers (i + 1) cs r)).length
        ≤ (keysOf r).length + (headers.length - i)
      have := fillCells_keys_length headers cs (i + 1) r
      omega
    | some hd =>
      show (keysOf (fillCells headers (i + 1) cs (dictInsert r hd (some (norm c))))).length
        ≤ (keysOf r).length + (headers.length - i)
      have hlt : i < headers.length := by
        rcases List.getElem?_eq_some.1 hh with ⟨hl, _⟩
        exact hl
      have h1 := fillCells_keys_length headers cs (i + 1) (dictInsert r hd (some (norm c)))
      have h2 := length_keysOf_dictInsert r hd (some (norm c))
      omega

theorem fillCells_dlookup_not_mem (headers : List String) (k : String)
    (hk : k ∉ headers) :
    ∀ (cells : List String) (i : Nat) (r : RowRecord),
      dlookup (fillCells headers i cells r) k = dlookup r k
  | [], _, _ => rfl
  | c :: cs, i, r => by
    unfold fillCells
    cases hh : headers[i]? with
    | none => exact fillCells_dlookup_not_mem headers k hk cs (i + 1) r
    | some hd =>
      have hne : k ≠ hd := fun he => hk (he ▸ List.getElem?_mem hh)
      rw [fillCells_dlookup_not_mem headers k hk cs (i + 1) _,
        dlookup_dictInsert_ne r hd k _ hne]

theorem fillCells_out_of_range (headers : List String) :
    ∀ (cells : List String) (i : Nat), headers.length ≤ i →
      ∀ r : RowRecord, fillCells headers i cells r = r
  | [], _, _, _ => rfl
  | c :: cs, i, h, r => by
    unfold fillCells
    rw [List.getElem?_eq_none h]
    exact fillCells_out_of_range headers cs (i + 1) (by omega) r

theorem insertBeforeLast_length (xs : List String) (x : String) :
    (insertBeforeLast xs x).length = xs.length + 1 := by
  simp [insertBeforeLast, List.length_take, List.length_drop]
  omega

theorem insertBeforeLast_getElem (xs : List String) (x : String) :
    (insertBeforeLast xs x)[xs.length - 1]? = some x := by
  unfold insertBeforeLast
  have h1 : (xs.take (xs.length - 1)).length = xs.length - 1 := by
    rw [List.length_take]; omega
  rw [List.getElem?_append, if_pos (by rw [List.length_append, h1]; simp)]
  rw [List.getElem?_append_right (by rw [h1])]
  rw [h1, Nat.sub_self]
  rfl

/-! Preservation of the flushed-skip-list invariant through the handlers. -/

theorem skipFlushed_if_save (c : Prop) [Decidable c] (st1 : ScrState)
    (s' : List String) (h : skipFlushed st1) :
    skipFlushed (if c then save_skip_list { st1 with skip := s' } else st1) := by
  split
  · rfl
  · exact h

theorem skipFlushed_product_section (st : ScrState) (link : String)
    (sec : SectionEle) (pt : Option (List HTable)) (ts s1 s2 s3 cat : String)
    (h : skipFlushed st) :
    skipFlushed (product_section_scrape_data st link sec pt ts s1 s2 s3 cat) := by
  unfold product_section_scrape_data
  split
  all_goals exact skipFlushed_if_save _ _ _ h

theorem skipFlushed_foldl_sections (f : ScrState → SectionEle → ScrState)
    (hf : ∀ st sec, skipFlushed st → skipFlushed (f st sec)) :
    ∀ (l : List SectionEle) (st : ScrState), skipFlushed st → skipFlushed (l.foldl f st)
  | [], _, h => h
  | sec :: l, st, h => skipFlushed_foldl_sections f hf l (f st sec) (hf st sec h)

theorem skipFlushed_handle_product_page (st : ScrState) (pg : ProductPage)
    (link s1 s2 cat s3 : String) (h : skipFlushed st) :
    skipFlushed (handle_product_page st pg link s1 s2 cat s3) := by
  unfold handle_product_page
  cases pg.pageCntnrSections with
  | none => exact h
  | some sections =>
    refine skipFlushed_foldl_sections _ (fun st' sec h' => ?_) sections st h
    split
    · exact h'
    · exact skipFlushed_product_section st' link sec pg.tables pg.timestamp
        s1 s2 s3 cat h'

theorem skipFlushed_types_index_product_step (st : ScrState) (it : TypeItem)
    (s1 s2 cat s3 : String) (h : skipFlushed st) :
    skipFlushed (types_index_product_step st it s1 s2 cat s3).1 := by
  unfold types_index_product_step
  by_cases h1 : it.title ∈ st.skip
  · simp only [if_pos h1]
    exact h
  · rw [if_neg h1]
    by_cases h2 : (st.db.find? (fun d => d.link == it.link)).isSome
    · rw [if_pos h2, if_pos h1]
      rfl
    · rw [if_neg h2]
      by_cases h3 : it.pageDataProtectionVisible = true
      · rw [if_pos h3]
        exact h
      · rw [if_neg h3]
        exact skipFlushed_handle_product_page st it.page it.link s1 s2 cat s3 h

theorem skipFlushed_types_products_loop (s1 s2 cat s3 : String) :
    ∀ (items : List TypeItem) (st : ScrState), skipFlushed st →
      skipFlushed (types_products_loop s1 s2 cat s3 st items).1
  | [], _, h => h
  | it :: rest, st, h => by
    unfold types_products_loop
    have hstep := skipFlushed_types_index_product_step st it s1 s2 cat s3 h
    cases he : types_index_product_step st it s1 s2 cat s3 with
    | mk st' e =>
      rw [he] at hstep
      cases e with
      | none => exact skipFlushed_types_products_loop s1 s2 cat s3 rest st' hstep
      | some err =>
        cases err with
        | accessRestricted => exact hstep
        | other => exact skipFlushed_types_products_loop s1 s2 cat s3 rest st' hstep

theorem skipFlushed_types_groups_loop (s1 s2 cat s3 : String) :
    ∀ (groups : List (List TypeItem)) (st : ScrState), skipFlushed st →
      skipFlushed (types_groups_loop s1 s2 cat s3 st groups).1
  | [], _, h => h
  | g :: rest, st, h => by
    unfold types_groups_loop
    have hstep := skipFlushed_types_products_loop s1 s2 cat s3 g st h
    cases he : types_products_loop s1 s2 cat s3 st g with
    | mk st' e =>
      rw [he] at hstep
      cases e with
      | none => exact skipFlushed_types_groups_loop s1 s2 cat s3 rest st' hstep
      | some err =>
        cases err with
        | accessRestricted => exact hstep
        | other => exact skipFlushed_types_groups_loop s1 s2 cat s3 rest st' hstep

theorem skipFlushed_handle_types_index_page (st : ScrState)
    (groups : List (List TypeItem)) (s1 s2 cat s3 : String) (h : skipFlushed st) :
    skipFlushed (handle_types_index_page st groups s1 s2 cat s3).1 := by
  unfold handle_types_index_page
  split
  · exact h
  · exact skipFlushed_types_groups_loop s1 s2 cat s3 groups st h

theorem skipFlushed_subcat_item_step (st : ScrState) (it : SubcatItem)
    (s1 s2 cat : String) (h : skipFlushed st) :
    skipFlushed (subcat_item_step st it s1 s2 cat).1 := by
  unfold subcat_item_step
  by_cases h1 : it.subcat_name3 ∈ st.skip
  · simp only [if_pos h1]
    exact h
  · rw [if_neg h1]
    by_cases h2 : access_restricted it.page = true
    · rw [if_pos h2]
      exact h
    · rw [if_neg h2]
      by_cases h3 : (!it.page.mainContentVisible) = true
      · rw [if_pos h3]
        exact h
      · rw [if_neg h3]
        have hdisp : skipFlushed
            (if whether_table_page_or_not it.page then
              (handle_product_page st it.page.product it.link s1 s2 cat
                it.subcat_name3, none)
            else if whether_product_page_or_not it.page then
              (handle_product_page st it.page.product it.link s1 s2 cat
                it.subcat_name3, none)
            else if whether_types_index_page_or_not it.page then
              handle_types_index_page st it.page.typeGroups s1 s2 cat
                it.subcat_name3
            else (st, none)).1 := by
          split
          · exact skipFlushed_handle_product_page st it.page.product it.link
              s1 s2 cat it.subcat_name3 h
          · split
            · exact skipFlushed_handle_product_page st it.page.product it.link
                s1 s2 cat it.subcat_name3 h
            · split
              · exact skipFlushed_handle_types_index_page st it.page.typeGroups
                  s1 s2 cat it.subcat_name3 h
              · exact h
        cases hd : (if whether_table_page_or_not it.page then
              (handle_product_page st it.page.product it.link s1 s2 cat
                it.subcat_name3, none)
            else if whether_product_page_or_not it.page then
              (handle_product_page st it.page.product it.link s1 s2 cat
                it.subcat_name3, none)
            else if whether_types_index_page_or_not it.page then
              handle_types_index_page st it.page.typeGroups s1 s2 cat
                it.subcat_name3
            else (st, none) : ScrState × Option RaisedErr) with
        | mk st1 e =>
          rw [hd] at hdisp
          cases e with
          | none =>
            show skipFlushed
              (if it.subcat_name3 ∉ st1.skip then
                (save_skip_list { st1 with skip := st1.skip ++ [it.subcat_name3] },
                  (none : Option RaisedErr))
              else (st1, none)).1
            by_cases h4 : it.subcat_name3 ∉ st1.skip
            · rw [if_pos h4]
              rfl
            · rw [if_neg h4]
              exact hdisp
          | some err =>
            cases err with
            | accessRestricted => exact hdisp
            | other => exact hdisp

/-! Loop-skeleton lemmas for the exception-propagation claims. -/

theorem handlerItemLoop_no_AR :
    ∀ items : List ItemRes, ItemRes.raiseAR ∉ items →
      handlerItemLoop items = (items.length, none)
  | [], _ => rfl
  | i :: rest, h => by
    have hr : ItemRes.raiseAR ∉ rest := fun hm => h (List.mem_cons_of_mem i hm)
    have hrec := handlerItemLoop_no_AR rest hr
    cases i with
    | raiseAR => exact absurd (List.mem_cons_self _ _) h
    | ok => simp [handlerItemLoop, hrec]
    | raiseOther => simp [handlerItemLoop, hrec]

theorem handlerItemLoop_AR :
    ∀ items : List ItemRes, ItemRes.raiseAR ∈ items →
      (handlerItemLoop items).2 = some RaisedErr.accessRestricted
  | [], h => absurd h (List.not_mem_nil _)
  | i :: rest, h => by
    cases i with
    | raiseAR => rfl
    | ok =>
      have hm : ItemRes.raiseAR ∈ rest := by
        rcases List.mem_cons.1 h with he | hm
        · exact absurd he.symm (by intro hc; cases hc)
        · exact hm
      simp [handlerItemLoop, handlerItemLoop_AR rest hm]
    | raiseOther =>
      have hm : ItemRes.raiseAR ∈ rest := by
        rcases List.mem_cons.1 h with he | hm
        · exact absurd he.symm (by intro hc; cases hc)
        · exact hm
      simp [handlerItemLoop, handlerItemLoop_AR rest hm]

theorem runItemLoop_first_stop (e : ItemRes) (err : RaisedErr)
    (he : e = ItemRes.raiseAR ∧ err = RaisedErr.accessRestricted
      ∨ e = ItemRes.raiseOther ∧ err = RaisedErr.other) :
    ∀ pre post, (∀ x ∈ pre, x = ItemRes.ok) →
      runItemLoop (pre ++ e :: post) = (pre.length + 1, some err)
  | [], post, _ => by
    rcases he with ⟨rfl, rfl⟩ | ⟨rfl, rfl⟩ <;> rfl
  | i :: pre, post, h => by
    have hi : i = ItemRes.ok := h i (List.mem_cons_self _ _)
    subst hi
    have hrec := runItemLoop_first_stop e err he pre post
      (fun x hx => h x (List.mem_cons_of_mem _ hx))
    simp [runItemLoop, hrec]

/-! Per-claim theorems. -/

/-- C1 (code bug): the spec says that when the data-protection indicator
does not become visible within 2s the page is classified Access-Restricted;
in the code `access_restricted` returns false exactly then, so no
`AccessRestrictedError` is raised and the page falls through to the
table-page classification, while a page whose indicator IS visible is the
one classified Access-Restricted — the call sites invert the polarity the
function's own docstring documents. -/
theorem c1_restricted_polarity_at_dispatch :
    access_restricted c1PageNoIndicator = false
    ∧ classify_run_dispatch c1PageNoIndicator = some PageKind.tablePage
    ∧ classify_subcat_dispatch c1PageNoIndicator = some PageKind.tablePage
    ∧ access_restricted c1PageIndicator = true
    ∧ classify_run_dispatch c1PageIndicator = some PageKind.accessRestrictedKind := by
  decide

/-- C2 counterexample: a subcategory tile whose link already has a matching
document in the store is dispatched to the product handler, which inserts a
second document for the same link — the pre-insertion check does not happen
on this handler path. -/
theorem c2_counterexample :
    (c2State.db.find? (fun d => d.link == c2Tile.link)).isSome = true
    ∧ (subcat_item_step c2State c2Tile "s1" "s2" "cat").1.db.length = 2 := by
  decide

/-- C2 (amended): only the types-index handler checks the Document Store
before building a Product Record: when `find_document` hits on the link, no
document is inserted, the title is appended to the Skip Set and flushed, and
no error is raised; the table-page and subcategory paths insert without any
such check. -/
theorem c2_amended_check_only_in_types_handler (st : ScrState) (it : TypeItem)
    (s1 s2 cat s3 : String)
    (h1 : it.title ∉ st.skip)
    (h2 : (st.db.find? (fun d => d.link == it.link)).isSome = true) :
    types_index_product_step st it s1 s2 cat s3
      = (save_skip_list { st with skip := st.skip ++ [it.title] }, none)
    ∧ (types_index_product_step st it s1 s2 cat s3).1.db = st.db
    ∧ it.title ∈ (types_index_product_step st it s1 s2 cat s3).1.skip := by
  have he : types_index_product_step st it s1 s2 cat s3
      = (save_skip_list { st with skip := st.skip ++ [it.title] }, none) := by
    unfold types_index_product_step
    rw [if_neg h1, if_pos h2, if_pos h1]
  refine ⟨he, ?_, ?_⟩
  · rw [he]
    rfl
  · rw [he]
    simp [save_skip_list]

/-- C2 witness: the amended statement applied to a concrete state holding a
document with link `L` and a concrete item with that link and a new title. -/
theorem c2_witness :
    (c2WitnessItem.title ∉ c2State.skip
      ∧ (c2State.db.find? (fun d => d.link == c2WitnessItem.link)).isSome = true)
    ∧ (types_index_product_step c2State c2WitnessItem "a" "b" "c" "d").1.db
        = c2State.db :=
  ⟨⟨by decide, by decide⟩,
    (c2_amended_check_only_in_types_handler c2State c2WitnessItem "a" "b" "c" "d"
      (by decide) (by decide)).2.1⟩

/-- C4 counterexample: on the table of the stated scenario (dimension
`2-56`, no `thead`, rows `Steel`/`10mm` and `Brass`/`12mm`) the extractor
emits no record containing a `Material` key at all — the first record holds
`Steel` under `serial_nu`, so the claimed `Material = Steel` mapping is
false. -/
theorem c4_counterexample :
    extract_data_from_table_ele c4Table =
      [[("Property A", some "2-56"), ("Property B", none), ("serial_nu", some "Steel")],
       [("Property A", some "2-56"), ("Property B", none), ("serial_nu", some "Brass")]]
    ∧ ∀ rec ∈ extract_data_from_table_ele c4Table, "Material" ∉ keysOf rec := by
  decide

/-- C4 (amended): with no `thead` the header list is just `serial_nu`, so
the scenario's table yields exactly two Row Records, both with
`Property A = 2-56`, each with exactly the keys `Property A`, `Property B`,
`serial_nu`; the first maps `serial_nu` to `Steel`, `Length` (and
`Material`) are absent, and every cell after the first is dropped. -/
theorem c4_amended_behavior :
    headersOf c4Table = ["serial_nu"]
    ∧ (extract_data_from_table_ele c4Table).length = 2
    ∧ (∀ rec ∈ extract_data_from_table_ele c4Table,
        dlookup rec "Property A" = some (some "2-56")
        ∧ keysOf rec = ["Property A", "Property B", "serial_nu"]
        ∧ "Length" ∉ keysOf rec)
    ∧ dlookup ((extract_data_from_table_ele c4Table).headD []) "serial_nu"
        = some (some "Steel") := by
  decide

/-- C5 counterexample: on a page where both the product-page probe and the
types-index probe hold (and no table), the subcategory handler's dispatch
chain picks Product Page, not Types-Index — the claimed single precedence
order with Types-Index before Product Page does not govern this site. -/
theorem c5_counterexample :
    whether_types_index_page_or_not c5BothPage = true
    ∧ whether_product_page_or_not c5BothPage = true
    ∧ classify_subcat_dispatch c5BothPage = some PageKind.productPage
    ∧ classify_subcat_dispatch c5BothPage ≠ some PageKind.typesIndex := by
  decide

/-- C5 (amended): each dispatch site resolves its checks in a fixed order,
but the orders differ: `run` checks Access-Restricted, then Table, then
Subcategory-Index, then Types-Index, else Unknown, and never classifies a
Product Page; the subcategory handler checks Access-Restricted, then Table,
then Product, then Types — so there the Product-Page check is decided
before the Types-Index check. -/
theorem c5_amended_dispatch_orders (p : ChildPage)
    (h : p.mainContentVisible = true) :
    (classify_run_dispatch p = some PageKind.accessRestrictedKind
      ↔ access_restricted p = true)
    ∧ (classify_run_dispatch p = some PageKind.tablePage
      ↔ (access_restricted p = false ∧ whether_table_page_or_not p = true))
    ∧ (classify_run_dispatch p = some PageKind.subcatIndex
      ↔ (access_restricted p = false ∧ whether_table_page_or_not p = false
        ∧ whether_subcat_index_page_or_not p = true))
    ∧ (classify_run_dispatch p = some PageKind.typesIndex
      ↔ (access_restricted p = false ∧ whether_table_page_or_not p = false
        ∧ whether_subcat_index_page_or_not p = false
        ∧ whether_types_index_page_or_not p = true))
    ∧ classify_run_dispatch p ≠ some PageKind.productPage
    ∧ (classify_subcat_dispatch p = some PageKind.productPage
      ↔ (access_restricted p = false ∧ whether_table_page_or_not p = false
        ∧ whether_product_page_or_not p = true))
    ∧ (classify_subcat_dispatch p = some PageKind.typesIndex
      ↔ (access_restricted p = false ∧ whether_table_page_or_not p = false
        ∧ whether_product_page_or_not p = false
        ∧ whether_types_index_page_or_not p = true)) := by
  unfold classify_run_dispatch classify_subcat_dispatch
  rw [h]
  cases hA : access_restricted p <;>
    cases hT : whether_table_page_or_not p <;>
    cases hS : whether_subcat_index_page_or_not p <;>
    cases hTy : whether_types_index_page_or_not p <;>
    cases hP : whether_product_page_or_not p <;>
    simp [hA, hT, hS, hTy, hP]

/-- C5 witness: the amended statement applied at a concrete loaded page on
which `run` classifies a subcategory index. -/
theorem c5_witness :
    c5WitnessPage.mainContentVisible = true
    ∧ classify_run_dispatch c5WitnessPage ≠ some PageKind.productPage :=
  ⟨by decide, (c5_amended_dispatch_orders c5WitnessPage (by decide)).2.2.2.2.1⟩

/-- C7: `extract_data_from_table_ele` returns the empty sequence, raising
nothing, for a table with no `tbody` and likewise for a `tbody` with zero
rows. -/
theorem c7_no_body_rows_empty (t : HTable)
    (h : t.tbody = none ∨ t.tbody = some []) :
    extract_data_from_table_ele t = [] := by
  rcases h with h | h <;> simp [extract_data_from_table_ele, h, processRows]

/-- C7 witness: the theorem applied to a concrete table whose `tbody` holds
zero rows. -/
theorem c7_witness :
    (({ thead := some ["H"], tbody := some [] } : HTable).tbody = none
      ∨ ({ thead := some ["H"], tbody := some [] } : HTable).tbody = some [])
    ∧ extract_data_from_table_ele { thead := some ["H"], tbody := some [] } = [] :=
  ⟨Or.inr rfl, c7_no_body_rows_empty _ (Or.inr rfl)⟩

/-- C8 counterexample: in `run`'s leaf-item loop an exception other than
`AccessRestrictedError` is NOT caught: with a first item raising some other
exception, only one item is attempted and the exception propagates, instead
of continuing with the next sibling. -/
theorem c8_counterexample :
    runItemLoop [ItemRes.raiseOther, ItemRes.ok] = (1, some RaisedErr.other)
    ∧ runItemLoop [ItemRes.raiseOther, ItemRes.ok] ≠ (2, none) := by
  decide

/-- C8 (amended): the subcategory-index and types-index handlers re-raise
`AccessRestrictedError` and catch any other per-item exception, continuing
with the next sibling (with no access restriction, every sibling is
attempted and nothing escapes); `run` also re-raises
`AccessRestrictedError`, but has no per-item catch, so the first exception
of any kind in its leaf loop aborts the remaining siblings and propagates. -/
theorem c8_amended_exception_paths (items : List ItemRes) :
    (ItemRes.raiseAR ∉ items → handlerItemLoop items = (items.length, none))
    ∧ (ItemRes.raiseAR ∈ items →
        (handlerItemLoop items).2 = some RaisedErr.accessRestricted)
    ∧ (∀ pre post, items = pre ++ ItemRes.raiseAR :: post →
        (∀ x ∈ pre, x = ItemRes.ok) →
        runItemLoop items = (pre.length + 1, some RaisedErr.accessRestricted))
    ∧ (∀ pre post, items = pre ++ ItemRes.raiseOther :: post →
        (∀ x ∈ pre, x = ItemRes.ok) →
        runItemLoop items = (pre.length + 1, some RaisedErr.other)) := by
  refine ⟨handlerItemLoop_no_AR items, handlerItemLoop_AR items, ?_, ?_⟩
  · intro pre post hi hp
    subst hi
    exact runItemLoop_first_stop _ _ (Or.inl ⟨rfl, rfl⟩) pre post hp
  · intro pre post hi hp
    subst hi
    exact runItemLoop_first_stop _ _ (Or.inr ⟨rfl, rfl⟩) pre post hp

/-- C8 witness: the amended statement applied to a concrete item list with a
failing middle item: the handler loops attempt all three siblings and
propagate nothing. -/
theorem c8_witness :
    ItemRes.raiseAR ∉ [ItemRes.ok, ItemRes.raiseOther, ItemRes.ok]
    ∧ handlerItemLoop [ItemRes.ok, ItemRes.raiseOther, ItemRes.ok] = (3, none) :=
  ⟨by decide,
    (c8_amended_exception_paths [ItemRes.ok, ItemRes.raiseOther, ItemRes.ok]).1
      (by decide)⟩

/-- C9 counterexample: `save_skip_list` truncates the skip-list file in
place before rewriting it, so a crash between the truncation and the write
leaves neither the previous durable version nor the new one — the write is
not atomic. -/
theorem c9_counterexample :
    fileAfterCrash (some ["a"]) (save_skip_list_ops ["a", "b"]) 1 ≠ some ["a"]
    ∧ fileAfterCrash (some ["a"]) (save_skip_list_ops ["a", "b"]) 1 ≠ some ["a", "b"] := by
  decide

/-- C9 (amended): after every mutation of the in-memory skip set, the
handler steps leave the durable file content equal to the in-memory set
(write-through after each mutation); but the write itself is an in-place
truncate-and-rewrite, so a crash between the truncation and the write
leaves neither the previous nor the new version. -/
theorem c9_flush_each_mutation_but_not_atomic (st : ScrState)
    (h : skipFlushed st) :
    (∀ link sec pt ts s1 s2 s3 cat,
        skipFlushed (product_section_scrape_data st link sec pt ts s1 s2 s3 cat))
    ∧ (∀ it s1 s2 cat s3,
        skipFlushed (types_index_product_step st it s1 s2 cat s3).1)
    ∧ (∀ it s1 s2 cat, skipFlushed (subcat_item_step st it s1 s2 cat).1)
    ∧ (∀ old l : List String,
        fileAfterCrash (some old) (save_skip_list_ops l) 1 = none) := by
  refine ⟨?_, ?_, ?_, ?_⟩
  · intro link sec pt ts s1 s2 s3 cat
    exact skipFlushed_product_section st link sec pt ts s1 s2 s3 cat h
  · intro it s1 s2 cat s3
    exact skipFlushed_types_index_product_step st it s1 s2 cat s3 h
  · intro it s1 s2 cat
    exact skipFlushed_subcat_item_step st it s1 s2 cat h
  · intro old l
    rfl

/-- C9 witness: the amended statement applied to a concrete state whose
durable copy matches its in-memory skip list. -/
theorem c9_witness :
    skipFlushed c9State
    ∧ fileAfterCrash (some ["a"]) (save_skip_list_ops ["a", "b"]) 1 = none :=
  ⟨rfl, (c9_flush_each_mutation_but_not_atomic c9State rfl).2.2.2 ["a"] ["a", "b"]⟩

/-! Structure of the rows emitted by the row loop. -/

theorem processRows_mem (dim : Option String) (headers : List String) :
    ∀ (rows : List TRow) (b : Option String) (rec : RowRecord),
      rec ∈ processRows dim headers b rows →
      ∃ r ∈ rows, r.tds ≠ [] ∧ ∃ b', rec = mkRowRecord dim b' headers r.tds
  | [], _, _, h => absurd h (List.not_mem_nil _)
  | r :: rest, b, rec, h => by
    unfold processRows at h
    rcases List.mem_append.1 h with h1 | h2
    · by_cases hemp : r.tds.isEmpty
      · rw [if_pos hemp] at h1
        exact absurd h1 (List.not_mem_nil _)
      · rw [if_neg hemp] at h1
        have he := List.mem_singleton.1 h1
        subst he
        refine ⟨r, List.mem_cons_self _ _, ?_, updateB dim b r, rfl⟩
        intro hc
        rw [hc] at hemp
        exact hemp rfl
    · rcases processRows_mem dim headers rest (updateB dim b r) rec h2 with
        ⟨r', hr', hne, b', hb'⟩
      exact ⟨r', List.mem_cons_of_mem _ hr', hne, b', hb'⟩

theorem mkRowRecord_serial_mem (dim b : Option String) (hs : List String)
    (tds : List String) (hne : tds ≠ []) (hlen : hs.length ≤ tds.length) :
    "serial_nu" ∈ keysOf (mkRowRecord dim b (insertBeforeLast hs "serial_nu") tds) := by
  have hpos : 0 < tds.length := List.length_pos.2 hne
  exact fillCells_key_hit (insertBeforeLast hs "serial_nu") "serial_nu" tds 0
    (hs.length - 1) _ (insertBeforeLast_getElem hs "serial_nu")
    (Nat.zero_le _) (by omega)

theorem mkRowRecord_keys_bound (dim b : Option String) (hs : List String)
    (tds : List String) :
    (keysOf (mkRowRecord dim b (insertBeforeLast hs "serial_nu") tds)).length
      ≤ hs.length + 3 := by
  unfold mkRowRecord
  have h1 := fillCells_keys_length (insertBeforeLast hs "serial_nu") tds 0
    (dictInsert (dictInsert [] "Property A" dim) "Property B" b)
  rw [keysOf_base] at h1
  simp only [List.length_cons, List.length_nil] at h1
  have h2 := insertBeforeLast_length hs "serial_nu"
  omega

/-! Property B update characterization and the row-loop splitting lemma. -/

theorem updateB_of_not_setsB (dim b : Option String) (r : TRow)
    (h : setsB dim r = false) : updateB dim b r = b := by
  unfold updateB
  cases hth : r.th with
  | none => rfl
  | some t =>
    unfold setsB at h
    rw [hth] at h
    show (if norm t ≠ "" ∧ some (norm t) ≠ dim then some (norm t) else b) = b
    have hcond : ¬(norm t ≠ "" ∧ some (norm t) ≠ dim) := by
      simp only [bne, Bool.and_eq_false_imp, Bool.not_eq_true'] at h
      intro hc
      by_cases h1 : (norm t == "") = true
      · exact hc.1 (beq_iff_eq.1 h1)
      · have h2 := h (by simpa using h1)
        exact hc.2 (by simpa using h2)
    rw [if_neg hcond]

theorem updateB_of_setsB (dim b : Option String) (r : TRow)
    (h : setsB dim r = true) :
    ∃ t, r.th = some t ∧ updateB dim b r = some (norm t) := by
  unfold updateB
  cases hth : r.th with
  | none =>
    unfold setsB at h
    rw [hth] at h
    cases h
  | some t =>
    unfold setsB at h
    rw [hth] at h
    refine ⟨t, rfl, ?_⟩
    show (if norm t ≠ "" ∧ some (norm t) ≠ dim then some (norm t) else b)
      = some (norm t)
    have hcond : norm t ≠ "" ∧ some (norm t) ≠ dim := by
      have := Bool.and_eq_true_iff.1 h
      constructor
      · simpa using this.1
      · simpa using this.2
    rw [if_pos hcond]

theorem processRows_append (dim : Option String) (hs : List String) :
    ∀ (l₁ l₂ : List TRow) (b : Option String),
      processRows dim hs b (l₁ ++ l₂)
        = processRows dim hs b l₁
          ++ processRows dim hs (l₁.foldl (updateB dim) b) l₂
  | [], l₂, b => by simp [processRows]
  | r :: l₁, l₂, b => by
    simp only [List.cons_append, processRows, List.foldl_cons, List.append_eq]
    rw [processRows_append dim hs l₁ l₂ (updateB dim b r), List.append_assoc]

theorem processRows_propB_const (dim : Option String) (hs : List String)
    (hB : "Property B" ∉ hs) :
    ∀ (rows : List TRow) (b : Option String),
      (∀ r ∈ rows, setsB dim r = false) →
      ∀ rec ∈ processRows dim hs b rows, dlookup rec "Property B" = some b
  | [], _, _, _, h => absurd h (List.not_mem_nil _)
  | r :: rest, b, hq, rec, h => by
    have hb' : updateB dim b r = b :=
      updateB_of_not_setsB dim b r (hq r (List.mem_cons_self _ _))
    unfold processRows at h
    rw [hb'] at h
    rcases List.mem_append.1 h with h1 | h2
    · by_cases hemp : r.tds.isEmpty
      · rw [if_pos hemp] at h1
        exact absurd h1 (List.not_mem_nil _)
      · rw [if_neg hemp] at h1
        have he := List.mem_singleton.1 h1
        subst he
        unfold mkRowRecord
        rw [fillCells_dlookup_not_mem hs "Property B" hB r.tds 0 _]
        exact dlookup_base dim b
    · exact processRows_propB_const dim hs hB rest b
        (fun r' hr' => hq r' (List.mem_cons_of_mem _ hr')) rec h2

/-! The extractor when the header list degenerates to just serial_nu. -/

theorem mkRowRecord_solo (dim b : Option String) (c : String) (cs : List String) :
    mkRowRecord dim b ["serial_nu"] (c :: cs)
      = [("Property A", dim), ("Property B", b), ("serial_nu", some (norm c))] := by
  show fillCells ["serial_nu"] 1 cs
    (dictInsert (dictInsert (dictInsert [] "Property A" dim) "Property B" b)
      "serial_nu" (some (norm c)))
    = [("Property A", dim), ("Property B", b), ("serial_nu", some (norm c))]
  rw [fillCells_out_of_range ["serial_nu"] cs 1 (by simp)]
  rfl

theorem processRows_solo (dim : Option String) :
    ∀ (rows : List TRow) (b : Option String),
      processRows dim ["serial_nu"] b rows = soloRecords dim b rows
  | [], _ => rfl
  | r :: rest, b => by
    unfold processRows soloRecords
    cases htds : r.tds with
    | nil =>
      simp [htds, processRows_solo dim rest (updateB dim b r)]
    | cons c cs =>
      simp [htds, processRows_solo dim rest (updateB dim b r), mkRowRecord_solo]

theorem soloRecords_keys (dim : Option String) :
    ∀ (rows : List TRow) (b : Option String) (rec : RowRecord),
      rec ∈ soloRecords dim b rows →
      keysOf rec = ["Property A", "Property B", "serial_nu"]
  | [], _, _, h => absurd h (List.not_mem_nil _)
  | r :: rest, b, rec, h => by
    unfold soloRecords at h
    rcases List.mem_append.1 h with h1 | h2
    · cases htds : r.tds with
      | nil =>
        rw [htds] at h1
        exact absurd h1 (List.not_mem_nil _)
      | cons c cs =>
        rw [htds] at h1
        have he := List.mem_singleton.1 h1
        subst he
        rfl
    · exact soloRecords_keys dim rest (updateB dim b r) rec h2

/-- C3 counterexample: a table whose two header labels exceed a row's single
data cell: the emitted Row Record carries no `serial_nu` key, so `serial_nu`
is not in every Row Record's key set. -/
theorem c3_counterexample :
    (headersRaw c3Table).length = 2
    ∧ ¬ ∀ rec ∈ extract_data_from_table_ele c3Table, "serial_nu" ∈ keysOf rec := by
  decide

/-- C3 (amended): for any table with N non-empty header labels — mixed row
lengths allowed — no emitted Row Record ever has more than N + 3 populated
keys, and every Row Record arises from one body row with data cells such
that, whenever that source row alone carries at least N data cells, the
record's key set contains `serial_nu`. -/
theorem c3_serial_key_and_bound (t : HTable) (rows : List TRow)
    (hb : t.tbody = some rows) :
    (∀ rec ∈ extract_data_from_table_ele t,
        (keysOf rec).length ≤ (headersRaw t).length + 3)
    ∧ (∀ rec ∈ extract_data_from_table_ele t,
        ∃ r ∈ rows, r.tds ≠ []
          ∧ (∃ b', rec = mkRowRecord (dimensionOf rows) b' (headersOf t) r.tds)
          ∧ ((headersRaw t).length ≤ r.tds.length →
              "serial_nu" ∈ keysOf rec)) := by
  have hmem : ∀ rec ∈ extract_data_from_table_ele t,
      rec ∈ processRows (dimensionOf rows) (headersOf t) none rows := by
    intro rec hrec
    unfold extract_data_from_table_ele at hrec
    rw [hb] at hrec
    exact hrec
  constructor
  · intro rec hrec
    rcases processRows_mem (dimensionOf rows) (headersOf t) rows none rec
      (hmem rec hrec) with ⟨r, hr, hne, b', hb'⟩
    subst hb'
    exact mkRowRecord_keys_bound (dimensionOf rows) b' (headersRaw t) r.tds
  · intro rec hrec
    rcases processRows_mem (dimensionOf rows) (headersOf t) rows none rec
      (hmem rec hrec) with ⟨r, hr, hne, b', hb'⟩
    subst hb'
    exact ⟨r, hr, hne, ⟨b', rfl⟩, fun hlen =>
      mkRowRecord_serial_mem (dimensionOf rows) b' (headersRaw t) r.tds hne hlen⟩

/-- C3 witness: the amended statement applied to a concrete two-header table
with mixed row lengths (one two-cell row, one one-cell row). -/
theorem c3_witness :
    c3WitnessTable.tbody = some c3WitnessRows
    ∧ (∀ rec ∈ extract_data_from_table_ele c3WitnessTable,
        (keysOf rec).length ≤ (headersRaw c3WitnessTable).length + 3) :=
  ⟨rfl, (c3_serial_key_and_bound c3WitnessTable c3WitnessRows rfl).1⟩

/-- C6: within one table the running Property B value is inherited
unchanged by every row that does not carry a qualifying row-header cell
(one with non-empty text differing from the dimension); a qualifying row
sets it to exactly its header text; hence after any prefix of rows, if no
later row qualifies, every later emitted Row Record carries the inherited
value — Property B never reverts unless a new header cell explicitly sets
it. -/
theorem c6_propertyB_monotone (dim b : Option String) (hs : List String)
    (rows₁ rows₂ : List TRow)
    (hB : "Property B" ∉ hs)
    (hq : ∀ r ∈ rows₂, setsB dim r = false) :
    (∀ r ∈ rows₂, ∀ b', updateB dim b' r = b')
    ∧ (∀ (r : TRow) (b' : Option String), setsB dim r = true →
        ∃ t, r.th = some t ∧ updateB dim b' r = some (norm t))
    ∧ processRows dim hs b (rows₁ ++ rows₂)
        = processRows dim hs b rows₁
          ++ processRows dim hs (rows₁.foldl (updateB dim) b) rows₂
    ∧ (∀ rec ∈ processRows dim hs (rows₁.foldl (updateB dim) b) rows₂,
        dlookup rec "Property B" = some (rows₁.foldl (updateB dim) b)) := by
  refine ⟨?_, ?_, processRows_append dim hs rows₁ rows₂ b, ?_⟩
  · intro r hr b'
    exact updateB_of_not_setsB dim b' r (hq r hr)
  · intro r b' hset
    exact updateB_of_setsB dim b' r hset
  · exact processRows_propB_const dim hs hB rows₂ (rows₁.foldl (updateB dim) b) hq

/-- C6 witness: the statement applied to a concrete dimension, header list,
a prefix that sets Property B and a tail with no qualifying header cells. -/
theorem c6_witness :
    ("Property B" ∉ ["Material", "serial_nu"]
      ∧ ∀ r ∈ c6TailRows, setsB (some "2-56") r = false)
    ∧ processRows (some "2-56") ["Material", "serial_nu"] none
        (c6HeadRows ++ c6TailRows)
      = processRows (some "2-56") ["Material", "serial_nu"] none c6HeadRows
        ++ processRows (some "2-56") ["Material", "serial_nu"]
            (c6HeadRows.foldl (updateB (some "2-56")) none) c6TailRows :=
  ⟨⟨by decide, by decide⟩,
    (c6_propertyB_monotone (some "2-56") none ["Material", "serial_nu"]
      c6HeadRows c6TailRows (by decide) (by decide)).2.2.1⟩

/-- C10: when a table has no `thead`, or every `thead` cell normalizes to
the empty string, the header list is exactly `serial_nu` alone; every
emitted Row Record then maps the normalized text of its row's first data
cell to `serial_nu`, drops all later cells, and has exactly the keys
`Property A`, `Property B`, `serial_nu`. -/
theorem c10_empty_headers_serial_only (t : HTable) (rows : List TRow)
    (hb : t.tbody = some rows)
    (hh : t.thead = none ∨ ∀ s ∈ t.thead.getD [], norm s = "") :
    headersOf t = ["serial_nu"]
    ∧ extract_data_from_table_ele t = soloRecords (dimensionOf rows) none rows
    ∧ ∀ rec ∈ extract_data_from_table_ele t,
        keysOf rec = ["Property A", "Property B", "serial_nu"] := by
  have hraw : headersRaw t = [] := by
    unfold headersRaw
    cases hth : t.thead with
    | none => rfl
    | some cells =>
      show (cells.map norm).filter (fun s => s != "") = []
      apply List.filter_eq_nil_iff.2
      intro a ha
      rcases List.mem_map.1 ha with ⟨s, hs, he⟩
      subst he
      rcases hh with hh | hh
      · rw [hth] at hh
        cases hh
      · have hnorm : norm s = "" := hh s (by rw [hth]; exact hs)
        simp [hnorm]
  have hof : headersOf t = ["serial_nu"] := by
    unfold headersOf
    rw [hraw]
    rfl
  have hex : extract_data_from_table_ele t
      = soloRecords (dimensionOf rows) none rows := by
    unfold extract_data_from_table_ele
    rw [hb]
    show processRows (dimensionOf rows) (headersOf t) none rows = _
    rw [hof, processRows_solo (dimensionOf rows) rows none]
  refine ⟨hof, hex, ?_⟩
  intro rec hrec
  rw [hex] at hrec
  exact soloRecords_keys (dimensionOf rows) rows none rec hrec

/-- C10 witness: the statement applied to a concrete table whose `thead`
holds only whitespace cells. -/
theorem c10_witness :
    (c10Table.tbody = some c10Rows
      ∧ (c10Table.thead = none ∨ ∀ s ∈ c10Table.thead.getD [], norm s = ""))
    ∧ headersOf c10Table = ["serial_nu"] :=
  ⟨⟨rfl, by decide⟩,
    (c10_empty_headers_serial_only c10Table c10Rows rfl (by decide)).1⟩

end McMaster
